import Mathlib

/-!
Verification development for the ASIN navigation benchmark core
(`src/utils.py`, `src/logic.py`, `src/asin_env.py`).

Python floats are modelled by real numbers; machine trigonometry by the
corresponding real functions.  Data structures (sessions, the session
registry, parsed commands, level selectors) are modelled by explicit Lean
structures and lists.
-/

namespace ASIN

/-- Points are (latitude, longitude) pairs, modelling Python float pairs. -/
abbrev Pt : Type := ℝ × ℝ

/-- Degrees to radians, as Python `math.radians`. -/
noncomputable def radians (x : ℝ) : ℝ := x * (Real.pi / 180)

/-- Two-argument arctangent with the conventions of Python `math.atan2`. -/
noncomputable def atan2 (y x : ℝ) : ℝ :=
  if 0 < x then Real.arctan (y / x)
  else if x < 0 then
    (if 0 ≤ y then Real.arctan (y / x) + Real.pi else Real.arctan (y / x) - Real.pi)
  else
    (if 0 < y then Real.pi / 2 else if y < 0 then -(Real.pi / 2) else 0)

/-- Great-circle distance in meters (`utils.haversine_distance`). -/
noncomputable def haversine_distance (lat1 lon1 lat2 lon2 : ℝ) : ℝ :=
  let R : ℝ := 6371000
  let phi1 := radians lat1
  let phi2 := radians lat2
  let dphi := radians (lat2 - lat1)
  let dlambda := radians (lon2 - lon1)
  let a := Real.sin (dphi / 2) ^ 2 +
    Real.cos phi1 * Real.cos phi2 * Real.sin (dlambda / 2) ^ 2
  let c := 2 * atan2 (Real.sqrt a) (Real.sqrt (1 - a))
  R * c

/-- Minimum distance from a point to a segment (`utils.point_to_segment_distance`):
planar projection parameter, spherical distance to the projected point. -/
noncomputable def point_to_segment_distance (px py x1 y1 x2 y2 : ℝ) : ℝ :=
  let dx := x2 - x1
  let dy := y2 - y1
  if dx = 0 ∧ dy = 0 then haversine_distance px py x1 y1
  else
    let t := max 0 (min 1 (((px - x1) * dx + (py - y1) * dy) / (dx * dx + dy * dy)))
    haversine_distance px py (x1 + t * dx) (y1 + t * dy)

/-- Spherical destination point (`utils.get_destination_point`), Earth radius 6378.1 km. -/
noncomputable def get_destination_point (lat lon bearing distanceMeters : ℝ) : Pt :=
  let R : ℝ := 6378.1
  let brng := radians bearing
  let d := distanceMeters / 1000
  let lat1 := radians lat
  let lon1 := radians lon
  let lat2 := Real.arcsin (Real.sin lat1 * Real.cos (d / R) +
    Real.cos lat1 * Real.sin (d / R) * Real.cos brng)
  let lon2 := lon1 + atan2 (Real.sin brng * Real.sin (d / R) * Real.cos lat1)
    (Real.cos (d / R) - Real.sin lat1 * Real.sin lat2)
  (lat2 / (Real.pi / 180), lon2 / (Real.pi / 180))

/-- Initial bearing between two points (`utils.calculate_initial_bearing`),
wrapped into [0, 360) by `(bearing + 360) % 360` on in-range arctangent output. -/
noncomputable def calculate_initial_bearing (startLat startLon endLat endLon : ℝ) : ℝ :=
  let slat := radians startLat
  let slon := radians startLon
  let elat := radians endLat
  let elon := radians endLon
  let dlon := elon - slon
  let x := Real.sin dlon * Real.cos elat
  let y := Real.cos slat * Real.sin elat - Real.sin slat * Real.cos elat * Real.cos dlon
  let b := (atan2 x y) / (Real.pi / 180)
  (b + 360) - 360 * Int.floor ((b + 360) / 360)

/-! ### Basic geometry lemmas -/

theorem atan2_zero_one : atan2 0 1 = 0 := by
  unfold atan2
  rw [if_pos (by norm_num : (0:ℝ) < 1)]
  norm_num

theorem haversine_self (lat lon : ℝ) : haversine_distance lat lon lat lon = 0 := by
  unfold haversine_distance radians
  simp [atan2_zero_one]

theorem arctan_nonneg_of_nonneg {z : ℝ} (hz : 0 ≤ z) : 0 ≤ Real.arctan z := by
  have h := Real.arctan_strictMono.monotone hz
  rwa [Real.arctan_zero] at h

theorem atan2_nonneg {y : ℝ} (x : ℝ) (hy : 0 ≤ y) : 0 ≤ atan2 y x := by
  unfold atan2
  split_ifs with h1 h2 h3 h4 h5
  all_goals first
    | exact arctan_nonneg_of_nonneg (div_nonneg hy (le_of_lt h1))
    | (have h := Real.neg_pi_div_two_lt_arctan (y / x)
       have hpi := Real.pi_pos
       linarith)
    | linarith [Real.pi_pos]
    | exact le_refl 0
    | exact absurd h3 (not_lt.mpr hy)
    | exact absurd h4 (not_lt.mpr hy)
    | exact absurd h5 (not_lt.mpr hy)
    | exact absurd hy h3
    | exact absurd hy h4
    | exact absurd hy h5

theorem haversine_nonneg (lat1 lon1 lat2 lon2 : ℝ) :
    0 ≤ haversine_distance lat1 lon1 lat2 lon2 := by
  unfold haversine_distance
  have h := atan2_nonneg
    (Real.sqrt (1 - (Real.sin (radians (lat2 - lat1) / 2) ^ 2 +
      Real.cos (radians lat1) * Real.cos (radians lat2) *
        Real.sin (radians (lon2 - lon1) / 2) ^ 2)))
    (Real.sqrt_nonneg (Real.sin (radians (lat2 - lat1) / 2) ^ 2 +
      Real.cos (radians lat1) * Real.cos (radians lat2) *
        Real.sin (radians (lon2 - lon1) / 2) ^ 2))
  dsimp only
  nlinarith [h]

theorem point_to_segment_distance_nonneg (px py x1 y1 x2 y2 : ℝ) :
    0 ≤ point_to_segment_distance px py x1 y1 x2 y2 := by
  unfold point_to_segment_distance
  dsimp only
  split_ifs
  · exact haversine_nonneg _ _ _ _
  · exact haversine_nonneg _ _ _ _

/-! ### Scorer (`logic.NavigationLogic.calculate_final_score`) -/

/-- Consecutive segments of a polyline, in order. -/
def segmentsOf (poly : List Pt) : List (Pt × Pt) := poly.zip poly.tail

/-- Pair every element with its index, starting from `i`; models Python's
`for i in range(...)` loops over the segment list. -/
def indexedFrom {α : Type} (i : ℕ) : List α → List (ℕ × α)
  | [] => []
  | a :: l => (i, a) :: indexedFrom (i + 1) l

/-- Great-circle length of one segment. -/
noncomputable def segLen (s : Pt × Pt) : ℝ :=
  haversine_distance s.1.1 s.1.2 s.2.1 s.2.2

/-- Minimum point-to-segment distance from a walked point to the reference
polyline.  Python starts from `float('inf')` and folds `min` over all
segments, which on a nonempty segment list is the list minimum; callers
only consume this value when the polyline has at least two points (the
empty-segment case corresponds to an infinite deviation, see
`base_similarity_val`). -/
noncomputable def minDistTo (wp : Pt) (poly : List Pt) : ℝ :=
  match (segmentsOf poly).map
      (fun s => point_to_segment_distance wp.1 wp.2 s.1.1 s.1.2 s.2.1 s.2.2) with
  | [] => 0
  | d :: ds => ds.foldl min d

/-- Average deviation of the walked path from the reference polyline. -/
noncomputable def avg_deviation_val (walked route : List Pt) : ℝ :=
  ((walked.map (fun wp => minDistTo wp route)).sum) / walked.length

/-- Base similarity: `70 * max(0, 1 - avg_deviation / 100)`.  When the
reference polyline has fewer than two points the Python average stays at
`float('inf')` and the IEEE expression `max(0, 1 - inf/100)` collapses
to `0`; the branch records that collapsed value. -/
noncomputable def base_similarity_val (walked route : List Pt) : ℝ :=
  if 2 ≤ route.length then 70 * max 0 (1 - avg_deviation_val walked route / 100)
  else 0

/-- Distance from the last walked point to the reference polyline's last point. -/
noncomputable def dist_to_finish_val (walked route : List Pt) : ℝ :=
  haversine_distance (walked.getLastD (0, 0)).1 (walked.getLastD (0, 0)).2
    (route.getLastD (0, 0)).1 (route.getLastD (0, 0)).2

/-- Destination bonus: 30 points when the finish lies within 50 m. -/
noncomputable def dest_score_val (walked route : List Pt) : ℝ :=
  if dist_to_finish_val walked route < 50 then 30 else 0

/-- State of the projection search: best distance so far (`none` models the
initial `float('inf')`), segment index (`-1` initially) and parameter `t`. -/
structure BestProj where
  dist : Option ℝ
  idx : ℤ
  t : ℝ

/-- One step of the closest-projection search over an indexed segment. -/
noncomputable def bestStep (fl fo : ℝ) (b : BestProj) (ip : ℕ × (Pt × Pt)) : BestProj :=
  let p1 := ip.2.1
  let p2 := ip.2.2
  let dx := p2.1 - p1.1
  let dy := p2.2 - p1.2
  let t := if dx = 0 ∧ dy = 0 then 0
    else max 0 (min 1 (((fl - p1.1) * dx + (fo - p1.2) * dy) / (dx * dx + dy * dy)))
  let nx := p1.1 + t * dx
  let ny := p1.2 + t * dy
  let d := haversine_distance fl fo nx ny
  match b.dist with
  | none => ⟨some d, (ip.1 : ℤ), t⟩
  | some d0 => if d < d0 then ⟨some d, (ip.1 : ℤ), t⟩ else b

/-- Closest point on the reference polyline to the walker's final position. -/
noncomputable def bestProjection (finalPos : Pt) (route : List Pt) : BestProj :=
  (indexedFrom 0 (segmentsOf route)).foldl (bestStep finalPos.1 finalPos.2) ⟨none, -1, 0⟩

/-- Reference length covered up to the closest projection. -/
noncomputable def covered_distance (finalPos : Pt) (route : List Pt) : ℝ :=
  let b := bestProjection finalPos route
  ((indexedFrom 0 (segmentsOf route)).map (fun ip =>
    if (ip.1 : ℤ) < b.idx then segLen ip.2
    else if (ip.1 : ℤ) = b.idx then segLen ip.2 * b.t
    else 0)).sum

/-- Total great-circle length of the reference polyline. -/
noncomputable def total_route_distance (route : List Pt) : ℝ :=
  ((segmentsOf route).map segLen).sum

/-- Progress ratio before the two overrides (`covered / total`, with the
zero-total guard `if total_distance == 0: total_distance = 1`). -/
noncomputable def progress_before_overrides (finalPos : Pt) (route : List Pt) : ℝ :=
  covered_distance finalPos route /
    (if total_route_distance route = 0 then 1 else total_route_distance route)

/-- Progress ratio after the anti-exploit override (force 0 within 5 m of the
start) and the destination override (force 1 when the bonus was earned).
The destination override is applied last and wins. -/
noncomputable def progress_value (walked route : List Pt) : ℝ :=
  let finalPos := walked.getLastD (0, 0)
  let p0 := progress_before_overrides finalPos route
  let p1 := if haversine_distance finalPos.1 finalPos.2
      (route.headD (0, 0)).1 (route.headD (0, 0)).2 < 5 then 0 else p0
  if 0 < dest_score_val walked route then 1 else p1

/-- Result tuple of `calculate_final_score`. -/
structure ScoreResult where
  total : ℝ
  dest : ℝ
  finalSimilarity : ℝ
  distToFinish : ℝ
  avgDeviation : ℝ

/-- The scorer (`logic.NavigationLogic.calculate_final_score`).  On the
degenerate single-point-reference input the reported `avgDeviation`
component stands for the Python `float('inf')`; every other component is
exact (see `base_similarity_val`). -/
noncomputable def calculate_final_score (walked route : List Pt) : ScoreResult :=
  if walked = [] ∨ route = [] then ⟨0, 0, 0, 0, 0⟩
  else
    let dest := dest_score_val walked route
    let sim := base_similarity_val walked route * progress_value walked route
    ⟨dest + sim, dest, sim, dist_to_finish_val walked route,
      avg_deviation_val walked route⟩

/-! ### Bounds for the scorer components -/

theorem segLen_nonneg (s : Pt × Pt) : 0 ≤ segLen s := haversine_nonneg _ _ _ _

theorem foldl_min_nonneg : ∀ (ds : List ℝ) (d : ℝ), 0 ≤ d → (∀ x ∈ ds, 0 ≤ x) →
    0 ≤ ds.foldl min d := by
  intro ds
  induction ds with
  | nil => intro d hd _; exact hd
  | cons x xs ih =>
    intro d hd hall
    simp only [List.foldl_cons]
    exact ih (min d x) (le_min hd (hall x (by simp)))
      (fun y hy => hall y (by simp [hy]))

theorem minDistTo_nonneg (wp : Pt) (poly : List Pt) : 0 ≤ minDistTo wp poly := by
  unfold minDistTo
  split
  · exact le_refl 0
  next d ds heq =>
    have hall : ∀ x ∈ d :: ds, 0 ≤ x := by
      rw [← heq]
      intro x hx
      rcases List.mem_map.mp hx with ⟨s, _, rfl⟩
      exact point_to_segment_distance_nonneg _ _ _ _ _ _
    exact foldl_min_nonneg ds d (hall d (by simp))
      (fun y hy => hall y (by simp [hy]))

theorem avg_deviation_nonneg (walked route : List Pt) :
    0 ≤ avg_deviation_val walked route := by
  unfold avg_deviation_val
  apply div_nonneg
  · apply List.sum_nonneg
    intro x hx
    rcases List.mem_map.mp hx with ⟨wp, _, rfl⟩
    exact minDistTo_nonneg _ _
  · exact Nat.cast_nonneg _

theorem base_similarity_nonneg (walked route : List Pt) :
    0 ≤ base_similarity_val walked route := by
  unfold base_similarity_val
  split_ifs
  · have h : (0:ℝ) ≤ max 0 (1 - avg_deviation_val walked route / 100) := le_max_left _ _
    linarith
  · exact le_refl 0

theorem base_similarity_le (walked route : List Pt) :
    base_similarity_val walked route ≤ 70 := by
  unfold base_similarity_val
  split_ifs
  · have h1 : 0 ≤ avg_deviation_val walked route / 100 := by
      have := avg_deviation_nonneg walked route
      positivity
    have h2 : max 0 (1 - avg_deviation_val walked route / 100) ≤ 1 :=
      max_le (by norm_num) (by linarith)
    linarith
  · norm_num

theorem foldl_inv {α β : Type} (P : β → Prop) (f : β → α → β)
    (hf : ∀ b a, P b → P (f b a)) :
    ∀ (l : List α) (b : β), P b → P (l.foldl f b) := by
  intro l
  induction l with
  | nil => intro b hb; exact hb
  | cons a l ih => intro b hb; exact ih (f b a) (hf b a hb)

theorem bestStep_t_bounds (fl fo : ℝ) (b : BestProj) (ip : ℕ × (Pt × Pt))
    (hb : 0 ≤ b.t ∧ b.t ≤ 1) :
    0 ≤ (bestStep fl fo b ip).t ∧ (bestStep fl fo b ip).t ≤ 1 := by
  have hclamp : ∀ z : ℝ, 0 ≤ max 0 (min 1 z) ∧ max 0 (min 1 z) ≤ 1 := fun z =>
    ⟨le_max_left _ _, max_le (by norm_num) (min_le_left _ _)⟩
  rcases b with ⟨bd, bi, bt⟩
  cases bd with
  | none =>
    unfold bestStep
    dsimp only
    split_ifs
    all_goals first
      | exact ⟨le_refl 0, by norm_num⟩
      | exact hclamp _
  | some d0 =>
    unfold bestStep
    dsimp only
    split_ifs
    all_goals first
      | exact ⟨le_refl 0, by norm_num⟩
      | exact hclamp _
      | exact hb

theorem bestProjection_t_bounds (fp : Pt) (route : List Pt) :
    0 ≤ (bestProjection fp route).t ∧ (bestProjection fp route).t ≤ 1 := by
  unfold bestProjection
  exact foldl_inv (fun b => 0 ≤ b.t ∧ b.t ≤ 1) (bestStep fp.1 fp.2)
    (fun b a hb => bestStep_t_bounds fp.1 fp.2 b a hb)
    (indexedFrom 0 (segmentsOf route)) ⟨none, -1, 0⟩ ⟨le_refl 0, by norm_num⟩

theorem indexedFrom_map_snd_sum {α : Type} (g : α → ℝ) :
    ∀ (l : List α) (i : ℕ),
      ((indexedFrom i l).map (fun ip => g ip.2)).sum = (l.map g).sum := by
  intro l
  induction l with
  | nil => intro i; rfl
  | cons a l ih => intro i; simp [indexedFrom, ih (i + 1)]

theorem covered_nonneg (fp : Pt) (route : List Pt) :
    0 ≤ covered_distance fp route := by
  unfold covered_distance
  dsimp only
  apply List.sum_nonneg
  intro x hx
  rcases List.mem_map.mp hx with ⟨ip, _, rfl⟩
  have ht := bestProjection_t_bounds fp route
  split_ifs
  · exact segLen_nonneg _
  · exact mul_nonneg (segLen_nonneg _) ht.1
  · exact le_refl 0

theorem covered_le_total (fp : Pt) (route : List Pt) :
    covered_distance fp route ≤ total_route_distance route := by
  have ht := bestProjection_t_bounds fp route
  unfold covered_distance total_route_distance
  dsimp only
  calc ((indexedFrom 0 (segmentsOf route)).map (fun ip =>
        if (ip.1 : ℤ) < (bestProjection fp route).idx then segLen ip.2
        else if (ip.1 : ℤ) = (bestProjection fp route).idx then
          segLen ip.2 * (bestProjection fp route).t
        else 0)).sum
      ≤ ((indexedFrom 0 (segmentsOf route)).map (fun ip => segLen ip.2)).sum := by
        apply List.sum_le_sum
        intro ip _
        split_ifs
        · exact le_refl _
        · exact mul_le_of_le_one_right (segLen_nonneg _) ht.2
        · exact segLen_nonneg _
    _ = ((segmentsOf route).map segLen).sum := indexedFrom_map_snd_sum segLen _ 0

theorem total_route_distance_nonneg (route : List Pt) :
    0 ≤ total_route_distance route := by
  unfold total_route_distance
  apply List.sum_nonneg
  intro x hx
  rcases List.mem_map.mp hx with ⟨s, _, rfl⟩
  exact segLen_nonneg s

theorem progress_before_bounds (fp : Pt) (route : List Pt) :
    0 ≤ progress_before_overrides fp route ∧ progress_before_overrides fp route ≤ 1 := by
  unfold progress_before_overrides
  split_ifs with h0
  · have hle := covered_le_total fp route
    rw [h0] at hle
    have hge := covered_nonneg fp route
    have hz : covered_distance fp route = 0 := le_antisymm hle hge
    rw [hz]
    norm_num
  · have hpos : 0 < total_route_distance route :=
      lt_of_le_of_ne (total_route_distance_nonneg route) (Ne.symm h0)
    exact ⟨div_nonneg (covered_nonneg fp route) (le_of_lt hpos),
      div_le_one_of_le₀ (covered_le_total fp route) (le_of_lt hpos)⟩

theorem progress_value_bounds (walked route : List Pt) :
    0 ≤ progress_value walked route ∧ progress_value walked route ≤ 1 := by
  unfold progress_value
  dsimp only
  split_ifs
  · exact ⟨by norm_num, le_refl 1⟩
  · exact ⟨le_refl 0, by norm_num⟩
  · exact progress_before_bounds _ _

theorem dest_score_nonneg (walked route : List Pt) :
    0 ≤ dest_score_val walked route := by
  unfold dest_score_val
  split_ifs <;> norm_num

theorem dest_score_le (walked route : List Pt) :
    dest_score_val walked route ≤ 30 := by
  unfold dest_score_val
  split_ifs <;> norm_num

/-! ### Concrete haversine values used by witnesses and counterexamples -/

theorem sin_sq_radians_90_half : Real.sin (radians 90 / 2) ^ 2 = 1 / 2 := by
  have h : radians 90 / 2 = Real.pi / 4 := by
    unfold radians
    ring
  rw [h, Real.sin_pi_div_four, div_pow, Real.sq_sqrt (by norm_num : (0:ℝ) ≤ 2)]
  norm_num

theorem sin_sq_radians_270_half : Real.sin (radians 270 / 2) ^ 2 = 1 / 2 := by
  have h : radians 270 / 2 = Real.pi - Real.pi / 4 := by
    unfold radians
    ring
  rw [h, Real.sin_pi_sub, Real.sin_pi_div_four, div_pow,
    Real.sq_sqrt (by norm_num : (0:ℝ) ≤ 2)]
  norm_num

theorem atan2_self_pos {x : ℝ} (hx : 0 < x) : atan2 x x = Real.pi / 4 := by
  unfold atan2
  rw [if_pos hx, div_self (ne_of_gt hx), Real.arctan_one]

theorem hav_equator (l : ℝ) (h : Real.sin (radians l / 2) ^ 2 = 1 / 2) :
    haversine_distance 0 0 0 l = 6371000 * (Real.pi / 2) := by
  unfold haversine_distance
  dsimp only
  have h0 : radians (0 - 0) = 0 := by
    unfold radians
    ring
  have hl : radians (l - 0) = radians l := by
    unfold radians
    ring
  have hc : Real.cos (radians 0) = 1 := by
    unfold radians
    simp
  rw [h0, hl, hc]
  have ha : Real.sin (0 / 2) ^ 2 + 1 * 1 * Real.sin (radians l / 2) ^ 2 = 1 / 2 := by
    norm_num [Real.sin_zero, h]
  rw [ha, (by norm_num : (1:ℝ) - 1 / 2 = 1 / 2),
    atan2_self_pos (Real.sqrt_pos.mpr (by norm_num : (0:ℝ) < 1 / 2))]
  ring

theorem hav_0_90 : haversine_distance 0 0 0 90 = 6371000 * (Real.pi / 2) :=
  hav_equator 90 sin_sq_radians_90_half

theorem hav_0_270 : haversine_distance 0 0 0 270 = 6371000 * (Real.pi / 2) :=
  hav_equator 270 sin_sq_radians_270_half

/-! ### Claim C1: score of a no-movement walk -/

/-- C1 (counterexample): the claim "a walked path consisting only of the
reference polyline's first point always scores `total = 0`" is false: when
the reference polyline ends within 50 m of its start, the destination bonus
fires and its override forces `progress_ratio = 1`, so the no-movement walk
on the degenerate reference `[(0,0), (0,0)]` scores 100, not 0. -/
theorem C1_counterexample :
    (calculate_final_score [((0:ℝ), (0:ℝ))] [((0:ℝ), (0:ℝ)), ((0:ℝ), (0:ℝ))]).total = 100 ∧
      (100:ℝ) ≠ 0 := by
  constructor
  · unfold calculate_final_score
    rw [if_neg (by simp)]
    dsimp only
    have hdest : dest_score_val [((0:ℝ), (0:ℝ))] [((0:ℝ), (0:ℝ)), ((0:ℝ), (0:ℝ))] = 30 := by
      unfold dest_score_val dist_to_finish_val
      simp [haversine_self]
    have hbase : base_similarity_val [((0:ℝ), (0:ℝ))] [((0:ℝ), (0:ℝ)), ((0:ℝ), (0:ℝ))] = 70 := by
      unfold base_similarity_val
      rw [if_pos (by simp)]
      have havg : avg_deviation_val [((0:ℝ), (0:ℝ))] [((0:ℝ), (0:ℝ)), ((0:ℝ), (0:ℝ))] = 0 := by
        unfold avg_deviation_val minDistTo segmentsOf
        simp [point_to_segment_distance, haversine_self]
      rw [havg]
      norm_num
    have hprog : progress_value [((0:ℝ), (0:ℝ))] [((0:ℝ), (0:ℝ)), ((0:ℝ), (0:ℝ))] = 1 := by
      unfold progress_value
      dsimp only
      rw [hdest, if_pos (by norm_num : (0:ℝ) < 30)]
    rw [hdest, hbase, hprog]
    norm_num
  · norm_num

/-- C1 (amended): a walked path consisting of exactly one point equal to the
reference polyline's first point scores `total = 0` provided the reference
polyline's last point is at least 50 m from that start point (so the
destination bonus, whose override beats the anti-exploit gate, is not
earned).  Without that proviso the code returns `30 + base_similarity`
instead (see `C1_counterexample`). -/
theorem C1_no_movement_scores_zero (route : List Pt) (p : Pt)
    (hr : route ≠ []) (hhead : route.headD (0, 0) = p)
    (hfar : 50 ≤ dist_to_finish_val [p] route) :
    (calculate_final_score [p] route).total = 0 := by
  have hne : ¬ ([p] = ([] : List Pt) ∨ route = []) := by simp [hr]
  unfold calculate_final_score
  rw [if_neg hne]
  dsimp only
  have hdest : dest_score_val [p] route = 0 := by
    unfold dest_score_val
    rw [if_neg (not_lt.mpr hfar)]
  have hprog : progress_value [p] route = 0 := by
    unfold progress_value
    dsimp only
    rw [hdest, if_neg (by norm_num : ¬ (0:ℝ) < 0)]
    have hlast : ([p] : List Pt).getLastD (0, 0) = p := rfl
    have h5 : haversine_distance (([p] : List Pt).getLastD (0, 0)).1
        (([p] : List Pt).getLastD (0, 0)).2
        (route.headD (0, 0)).1 (route.headD (0, 0)).2 < 5 := by
      rw [hlast, hhead, haversine_self]
      norm_num
    rw [if_pos h5]
  rw [hdest, hprog, mul_zero, add_zero]

/-- C1 (witness): the amended theorem applied to the start point of the
reference polyline `[(0,0), (0,90)]`, whose endpoints are a quarter of the
equator apart. -/
theorem C1_witness :
    50 ≤ dist_to_finish_val [((0:ℝ), (0:ℝ))] [((0:ℝ), (0:ℝ)), ((0:ℝ), (90:ℝ))] ∧
      (calculate_final_score [((0:ℝ), (0:ℝ))] [((0:ℝ), (0:ℝ)), ((0:ℝ), (90:ℝ))]).total = 0 := by
  have hfar : 50 ≤ dist_to_finish_val [((0:ℝ), (0:ℝ))] [((0:ℝ), (0:ℝ)), ((0:ℝ), (90:ℝ))] := by
    unfold dist_to_finish_val
    have hg1 : ([((0:ℝ), (0:ℝ))] : List Pt).getLastD (0, 0) = ((0:ℝ), (0:ℝ)) := rfl
    have hg2 : ([((0:ℝ), (0:ℝ)), ((0:ℝ), (90:ℝ))] : List Pt).getLastD (0, 0)
        = ((0:ℝ), (90:ℝ)) := rfl
    rw [hg1, hg2]
    dsimp only
    rw [hav_0_90]
    nlinarith [Real.pi_gt_three]
  exact ⟨hfar, C1_no_movement_scores_zero _ _ (by simp) rfl hfar⟩

/-! ### Claim C2: total score decomposition and range -/

/-- C2: for nonempty walked path and reference polyline the scorer's total is
`destination_bonus + base_similarity * progress_ratio`, the destination
bonus is 30 exactly when the great-circle distance from the last walked
point to the reference's last point is below 50 m, and the total lies in
[0, 100]. -/
theorem C2_score_decomposition (walked route : List Pt)
    (hw : walked ≠ []) (hr : route ≠ []) :
    (calculate_final_score walked route).total
        = dest_score_val walked route
          + base_similarity_val walked route * progress_value walked route
      ∧ dest_score_val walked route
        = (if haversine_distance (walked.getLastD (0, 0)).1 (walked.getLastD (0, 0)).2
            (route.getLastD (0, 0)).1 (route.getLastD (0, 0)).2 < 50 then 30 else 0)
      ∧ 0 ≤ (calculate_final_score walked route).total
      ∧ (calculate_final_score walked route).total ≤ 100 := by
  have hne : ¬ (walked = [] ∨ route = []) := by simp [hw, hr]
  have htot : (calculate_final_score walked route).total
      = dest_score_val walked route
        + base_similarity_val walked route * progress_value walked route := by
    unfold calculate_final_score
    rw [if_neg hne]
  have hp := progress_value_bounds walked route
  have hb0 := base_similarity_nonneg walked route
  have hb70 := base_similarity_le walked route
  have hd0 := dest_score_nonneg walked route
  have hd30 := dest_score_le walked route
  have hmul0 : 0 ≤ base_similarity_val walked route * progress_value walked route :=
    mul_nonneg hb0 hp.1
  have hmul70 : base_similarity_val walked route * progress_value walked route ≤ 70 := by
    calc base_similarity_val walked route * progress_value walked route
        ≤ 70 * 1 := mul_le_mul hb70 hp.2 hp.1 (by norm_num)
      _ = 70 := by norm_num
  refine ⟨htot, rfl, ?_, ?_⟩
  · rw [htot]; linarith
  · rw [htot]; linarith

/-- C2 (witness): the decomposition theorem applied to the one-point walk
`[(0,0)]` against the reference polyline `[(0,0), (0,90)]`. -/
theorem C2_witness :
    (calculate_final_score [((0:ℝ), (0:ℝ))] [((0:ℝ), (0:ℝ)), ((0:ℝ), (90:ℝ))]).total
        = dest_score_val [((0:ℝ), (0:ℝ))] [((0:ℝ), (0:ℝ)), ((0:ℝ), (90:ℝ))]
          + base_similarity_val [((0:ℝ), (0:ℝ))] [((0:ℝ), (0:ℝ)), ((0:ℝ), (90:ℝ))]
            * progress_value [((0:ℝ), (0:ℝ))] [((0:ℝ), (0:ℝ)), ((0:ℝ), (90:ℝ))]
      ∧ 0 ≤ (calculate_final_score [((0:ℝ), (0:ℝ))] [((0:ℝ), (0:ℝ)), ((0:ℝ), (90:ℝ))]).total
      ∧ (calculate_final_score [((0:ℝ), (0:ℝ))] [((0:ℝ), (0:ℝ)), ((0:ℝ), (90:ℝ))]).total ≤ 100 :=
  ⟨(C2_score_decomposition _ _ (by simp) (by simp)).1,
    (C2_score_decomposition _ _ (by simp) (by simp)).2.2.1,
    (C2_score_decomposition _ _ (by simp) (by simp)).2.2.2⟩

/-! ### Truncation (`logic.NavigationLogic._truncate_polyline_to_meters`) -/

/-- Cumulative great-circle length of a polyline
(`logic.NavigationLogic._polyline_length_meters`). -/
noncomputable def polyline_length_meters : List Pt → ℝ
  | p1 :: p2 :: rest =>
      haversine_distance p1.1 p1.2 p2.1 p2.2 + polyline_length_meters (p2 :: rest)
  | _ => 0

/-- Loop of the truncation: `p1` is the current segment start, the list holds
the remaining points, `traveled` the accumulated length.  Returns the points
the loop appends after the initial `pts[0]`; zero-length segments are
skipped (`continue`) without emitting their endpoint. -/
noncomputable def truncGo (target : ℝ) : List Pt → Pt → ℝ → List Pt
  | [], _, _ => []
  | p2 :: rest, p1, traveled =>
      let seg := haversine_distance p1.1 p1.2 p2.1 p2.2
      if seg ≤ 0 then truncGo target rest p2 traveled
      else if target ≤ traveled + seg then
        let t := max 0 (min 1 ((target - traveled) / seg))
        [(p1.1 + (p2.1 - p1.1) * t, p1.2 + (p2.2 - p1.2) * t)]
      else p2 :: truncGo target rest p2 (traveled + seg)

/-- Truncation (`_truncate_polyline_to_meters`): the truncated polyline and
its recomputed cumulative length. -/
noncomputable def truncate_polyline_to_meters (pts : List Pt) (targetMeters : ℝ) :
    List Pt × ℝ :=
  match pts with
  | [] => ([], 0)
  | [p] => ([p], 0)
  | p1 :: rest =>
      if targetMeters ≤ 0 then ([p1], 0)
      else
        let out := p1 :: truncGo targetMeters rest p1 0
        (out, polyline_length_meters out)

/-- Linear interpolation in lat/lon coordinates, as used by the truncation. -/
def lerpPt (a b : Pt) (t : ℝ) : Pt :=
  (a.1 + (b.1 - a.1) * t, a.2 + (b.2 - a.2) * t)

theorem polyline_length_nil : polyline_length_meters [] = 0 := rfl

theorem polyline_length_single (p : Pt) : polyline_length_meters [p] = 0 := rfl

theorem polyline_length_cons_cons (a b : Pt) (l : List Pt) :
    polyline_length_meters (a :: b :: l)
      = haversine_distance a.1 a.2 b.1 b.2 + polyline_length_meters (b :: l) := rfl

theorem segmentsOf_cons_cons (a b : Pt) (l : List Pt) :
    segmentsOf (a :: b :: l) = (a, b) :: segmentsOf (b :: l) := rfl

theorem segLen_pair (a b : Pt) : segLen (a, b) = haversine_distance a.1 a.2 b.1 b.2 := rfl

/-- Structure of the truncation loop: under positive segment lengths, the
loop output is a prefix of the remaining points followed by the interpolated
crossing point, and the accumulated length bookkeeping hits the target
exactly. -/
theorem truncGo_spec (target : ℝ) :
    ∀ (rest : List Pt) (p1 : Pt) (traveled : ℝ),
      (∀ s ∈ segmentsOf (p1 :: rest), 0 < segLen s) →
      traveled < target →
      target ≤ traveled + polyline_length_meters (p1 :: rest) →
      ∃ k t, k + 2 ≤ (p1 :: rest).length ∧ 0 ≤ t ∧ t ≤ 1 ∧
        truncGo target rest p1 traveled
          = rest.take k
            ++ [lerpPt ((p1 :: rest).getD k (0, 0)) ((p1 :: rest).getD (k + 1) (0, 0)) t] ∧
        traveled + polyline_length_meters ((p1 :: rest).take (k + 1))
          + t * segLen ((p1 :: rest).getD k (0, 0), (p1 :: rest).getD (k + 1) (0, 0))
          = target := by
  intro rest
  induction rest with
  | nil =>
    intro p1 traveled _ hlt hle
    exfalso
    rw [polyline_length_single] at hle
    linarith
  | cons p2 rs ih =>
    intro p1 traveled hseg hlt hle
    have hsegpos : 0 < haversine_distance p1.1 p1.2 p2.1 p2.2 := by
      have h := hseg (p1, p2) (by rw [segmentsOf_cons_cons]; exact List.mem_cons_self _ _)
      rwa [segLen_pair] at h
    by_cases hc : target ≤ traveled + haversine_distance p1.1 p1.2 p2.1 p2.2
    · have ht0 : 0 ≤ (target - traveled) / haversine_distance p1.1 p1.2 p2.1 p2.2 :=
        le_of_lt (div_pos (by linarith) hsegpos)
      have ht1 : (target - traveled) / haversine_distance p1.1 p1.2 p2.1 p2.2 ≤ 1 :=
        (div_le_one hsegpos).mpr (by linarith)
      refine ⟨0, (target - traveled) / haversine_distance p1.1 p1.2 p2.1 p2.2,
        ?_, ht0, ht1, ?_, ?_⟩
      · simp [List.length_cons]
      · simp only [truncGo]
        rw [if_neg (not_le.mpr hsegpos), if_pos hc]
        have hclamp : max 0 (min 1 ((target - traveled) /
            haversine_distance p1.1 p1.2 p2.1 p2.2))
            = (target - traveled) / haversine_distance p1.1 p1.2 p2.1 p2.2 := by
          rw [min_eq_right ht1, max_eq_right ht0]
        rw [hclamp]
        simp [lerpPt, List.getD]
      · simp only [List.take_succ_cons, List.take_zero, polyline_length_single,
          List.getD_cons_zero, List.getD_cons_succ, segLen_pair]
        rw [add_zero, div_mul_cancel₀ _ (ne_of_gt hsegpos)]
        ring
    · push_neg at hc
      have hseg2 : ∀ s ∈ segmentsOf (p2 :: rs), 0 < segLen s := fun s hs =>
        hseg s (by rw [segmentsOf_cons_cons]; exact List.mem_cons_of_mem _ hs)
      have hle2 : target ≤ (traveled + haversine_distance p1.1 p1.2 p2.1 p2.2)
          + polyline_length_meters (p2 :: rs) := by
        rw [polyline_length_cons_cons] at hle
        linarith
      obtain ⟨k, t, hk, ht0, ht1, hout, hsum⟩ := ih p2
        (traveled + haversine_distance p1.1 p1.2 p2.1 p2.2) hseg2 hc hle2
      refine ⟨k + 1, t, ?_, ht0, ht1, ?_, ?_⟩
      · simp only [List.length_cons] at hk ⊢
        omega
      · simp only [truncGo]
        rw [if_neg (not_le.mpr hsegpos), if_neg (not_le.mpr hc), hout]
        simp [List.take_succ_cons, List.getD_cons_succ]
      · have hpl : polyline_length_meters ((p1 :: p2 :: rs).take (k + 1 + 1))
            = haversine_distance p1.1 p1.2 p2.1 p2.2
              + polyline_length_meters ((p2 :: rs).take (k + 1)) := by
          rw [List.take_succ_cons, List.take_succ_cons]
          exact polyline_length_cons_cons p1 p2 (rs.take k)
        simp only [List.getD_cons_succ] at hsum ⊢
        rw [hpl]
        simp only [List.take_succ_cons] at hsum ⊢
        linarith

/-- C3 (amended): for a polyline with at least two points, all of whose
segments have positive great-circle length, and a positive target not
exceeding the total length, the truncation returns the input's prefix up to
the crossing segment followed by the linear lat/lon interpolation on that
segment, with interpolation parameter `t ∈ [0, 1]`, and the kept prefix
length plus `t` times the crossing segment's length equals the target
exactly.  The recomputed cumulative length of the output may however differ
from the target by the planar-interpolation error, which is unbounded in
general (see `C3_counterexample`); the "within 1 m" part of the claim is
false. -/
theorem C3_truncation_structure (pts : List Pt) (target : ℝ)
    (h2 : 2 ≤ pts.length) (hpos : 0 < target)
    (hlen : target ≤ polyline_length_meters pts)
    (hseg : ∀ s ∈ segmentsOf pts, 0 < segLen s) :
    ∃ k t, k + 2 ≤ pts.length ∧ 0 ≤ t ∧ t ≤ 1 ∧
      (truncate_polyline_to_meters pts target).1
        = pts.take (k + 1) ++ [lerpPt (pts.getD k (0, 0)) (pts.getD (k + 1) (0, 0)) t] ∧
      polyline_length_meters (pts.take (k + 1))
        + t * segLen (pts.getD k (0, 0), pts.getD (k + 1) (0, 0)) = target := by
  cases pts with
  | nil => simp at h2
  | cons p1 rest =>
    cases rest with
    | nil => simp at h2
    | cons p2 rs =>
      obtain ⟨k, t, hk, ht0, ht1, hout, hsum⟩ :=
        truncGo_spec target (p2 :: rs) p1 0 hseg hpos (by rw [zero_add]; exact hlen)
      refine ⟨k, t, hk, ht0, ht1, ?_, ?_⟩
      · have htr : (truncate_polyline_to_meters (p1 :: p2 :: rs) target).1
            = p1 :: truncGo target (p2 :: rs) p1 0 := by
          simp only [truncate_polyline_to_meters]
          rw [if_neg (not_le.mpr hpos)]
        rw [htr, hout, List.take_succ_cons]
        rfl
      · rw [zero_add] at hsum
        exact hsum

/-- C3 (counterexample): the "within 1 m of the target" part of the claim is
false in general.  For the equatorial polyline `[(0,0), (0,270)]` (one
segment of great-circle length `6371000*(pi/2)`, since the haversine formula
folds the 270-degree longitude difference back to 90 degrees) and target
`6371000*(pi/6)`, the crossing point is interpolated linearly in longitude
to `(0, 90)`, whose great-circle distance from the start is
`6371000*(pi/2)`; the recomputed length misses the target by
`6371000*(pi/3) > 1` meter. -/
theorem C3_counterexample :
    2 ≤ ([((0:ℝ), (0:ℝ)), ((0:ℝ), (270:ℝ))] : List Pt).length ∧
    0 < 6371000 * (Real.pi / 6) ∧
    6371000 * (Real.pi / 6)
      ≤ polyline_length_meters [((0:ℝ), (0:ℝ)), ((0:ℝ), (270:ℝ))] ∧
    1 < |(truncate_polyline_to_meters [((0:ℝ), (0:ℝ)), ((0:ℝ), (270:ℝ))]
          (6371000 * (Real.pi / 6))).2 - 6371000 * (Real.pi / 6)| := by
  have hpi := Real.pi_pos
  have hpi3 := Real.pi_gt_three
  have hKpos : 0 < 6371000 * (Real.pi / 2) := by positivity
  have hlen : polyline_length_meters [((0:ℝ), (0:ℝ)), ((0:ℝ), (270:ℝ))]
      = 6371000 * (Real.pi / 2) := by
    rw [polyline_length_cons_cons, polyline_length_single]
    dsimp only
    rw [hav_0_270]
    ring
  have hTpos : 0 < 6371000 * (Real.pi / 6) := by positivity
  have hgo : truncGo (6371000 * (Real.pi / 6)) [((0:ℝ), (270:ℝ))] ((0:ℝ), (0:ℝ)) 0
      = [((0:ℝ), (90:ℝ))] := by
    simp only [truncGo]
    rw [hav_0_270]
    rw [if_neg (not_le.mpr hKpos), if_pos (by nlinarith)]
    have hdiv : (6371000 * (Real.pi / 6) - 0) / (6371000 * (Real.pi / 2)) = 1 / 3 := by
      rw [sub_zero, div_eq_iff (ne_of_gt hKpos)]
      ring
    rw [hdiv]
    norm_num
  have htr : truncate_polyline_to_meters [((0:ℝ), (0:ℝ)), ((0:ℝ), (270:ℝ))]
      (6371000 * (Real.pi / 6))
      = ([((0:ℝ), (0:ℝ)), ((0:ℝ), (90:ℝ))], 6371000 * (Real.pi / 2)) := by
    simp only [truncate_polyline_to_meters]
    rw [if_neg (not_le.mpr hTpos), hgo]
    have hlen90 : polyline_length_meters [((0:ℝ), (0:ℝ)), ((0:ℝ), (90:ℝ))]
        = 6371000 * (Real.pi / 2) := by
      rw [polyline_length_cons_cons, polyline_length_single]
      dsimp only
      rw [hav_0_90]
      ring
    rw [hlen90]
  refine ⟨by simp, hTpos, ?_, ?_⟩
  · rw [hlen]
    nlinarith
  · rw [htr]
    dsimp only
    rw [abs_of_pos (by nlinarith)]
    nlinarith

/-- C3 (witness): the structural truncation theorem applied to the
equatorial polyline `[(0,0), (0,90)]` with target `6371000*(pi/4)` (half of
the single segment's length). -/
theorem C3_witness :
    0 < 6371000 * (Real.pi / 4) ∧
    ∃ k t, k + 2 ≤ ([((0:ℝ), (0:ℝ)), ((0:ℝ), (90:ℝ))] : List Pt).length ∧ 0 ≤ t ∧ t ≤ 1 ∧
      (truncate_polyline_to_meters [((0:ℝ), (0:ℝ)), ((0:ℝ), (90:ℝ))]
          (6371000 * (Real.pi / 4))).1
        = ([((0:ℝ), (0:ℝ)), ((0:ℝ), (90:ℝ))] : List Pt).take (k + 1)
          ++ [lerpPt (([((0:ℝ), (0:ℝ)), ((0:ℝ), (90:ℝ))] : List Pt).getD k (0, 0))
              (([((0:ℝ), (0:ℝ)), ((0:ℝ), (90:ℝ))] : List Pt).getD (k + 1) (0, 0)) t] ∧
      polyline_length_meters (([((0:ℝ), (0:ℝ)), ((0:ℝ), (90:ℝ))] : List Pt).take (k + 1))
        + t * segLen ((([((0:ℝ), (0:ℝ)), ((0:ℝ), (90:ℝ))] : List Pt).getD k (0, 0)),
            (([((0:ℝ), (0:ℝ)), ((0:ℝ), (90:ℝ))] : List Pt).getD (k + 1) (0, 0)))
        = 6371000 * (Real.pi / 4) := by
  have hpi := Real.pi_pos
  constructor
  · positivity
  · apply C3_truncation_structure
    · simp
    · positivity
    · rw [polyline_length_cons_cons, polyline_length_single]
      dsimp only
      rw [hav_0_90]
      nlinarith
    · intro s hs
      have hmem : s = (((0:ℝ), (0:ℝ)), ((0:ℝ), (90:ℝ))) := by
        simpa [segmentsOf] using hs
      rw [hmem, segLen_pair]
      dsimp only
      rw [hav_0_90]
      positivity

/-! ### Python float modulo and heading arithmetic -/

/-- Python float `%` with the sign convention of the divisor:
`x % y = x - y * floor(x / y)`. -/
noncomputable def fmod (x y : ℝ) : ℝ := x - y * (Int.floor (x / y) : ℝ)

theorem fmod_eq_fract {x y : ℝ} (hy : y ≠ 0) : fmod x y = y * Int.fract (x / y) := by
  unfold fmod
  have hxy : y * (x / y) = x := by field_simp
  rw [Int.fract, mul_sub, hxy]

theorem fmod_nonneg_of_pos {y : ℝ} (hy : 0 < y) (x : ℝ) : 0 ≤ fmod x y := by
  rw [fmod_eq_fract (ne_of_gt hy)]
  exact mul_nonneg (le_of_lt hy) (Int.fract_nonneg _)

theorem fmod_lt_of_pos {y : ℝ} (hy : 0 < y) (x : ℝ) : fmod x y < y := by
  rw [fmod_eq_fract (ne_of_gt hy)]
  calc y * Int.fract (x / y) < y * 1 :=
        mul_lt_mul_of_pos_left (Int.fract_lt_one _) hy
    _ = y := mul_one y

theorem fmod_sub_int (x : ℝ) (k : ℤ) {y : ℝ} (hy : y ≠ 0) :
    fmod (x - y * (k : ℝ)) y = fmod x y := by
  unfold fmod
  have h1 : (x - y * (k : ℝ)) / y = x / y - (k : ℝ) := by
    field_simp
  rw [h1]
  rw [show x / y - (k : ℝ) = x / y - ((k : ℤ) : ℝ) from rfl, Int.floor_sub_int]
  push_cast
  ring

theorem fmod_eq_self {x y : ℝ} (hy : 0 < y) (h0 : 0 ≤ x) (h1 : x < y) : fmod x y = x := by
  unfold fmod
  have hf : ⌊x / y⌋ = 0 := by
    rw [Int.floor_eq_zero_iff]
    exact ⟨div_nonneg h0 (le_of_lt hy), (div_lt_one hy).mpr h1⟩
  rw [hf]
  push_cast
  ring

theorem fmod_restore {h d : ℝ} (h0 : 0 ≤ h) (h1 : h < 360) :
    fmod (fmod (h - d) 360 + d) 360 = h := by
  have harg : fmod (h - d) 360 + d = h - 360 * ((Int.floor ((h - d) / 360) : ℤ) : ℝ) := by
    unfold fmod
    ring
  rw [harg, fmod_sub_int h (Int.floor ((h - d) / 360)) (by norm_num : (360:ℝ) ≠ 0),
    fmod_eq_self (by norm_num : (0:ℝ) < 360) h0 h1]

/-! ### Session state machine (`asin_env.ASINEnv`) -/

/-- Movement step size in meters (`utils.STEP_SIZE_METERS`). -/
def STEP_SIZE_METERS : ℕ := 15

/-- Opaque image values: bytes fetched from a rendering collaborator, or the
placeholder PNG generated for a given size and label
(`logic.NavigationLogic._placeholder_png_b64`). -/
inductive Image
  | fetched (data : String)
  | placeholderPng (width height : ℕ) (label : String)
deriving DecidableEq

/-- One session's state (the dict built by `ASINEnv.start`). -/
structure SessionState where
  level : ℕ
  routePoly : List Pt
  generatedWaypoints : List Pt
  currentPos : Pt
  currentHeading : ℝ
  walkedPath : List Pt
  stepCount : ℕ
  maxSteps : ℕ
  targetDistM : ℕ
  mapB64 : Option Image
  lastViewB64 : Option Image

/-- Second token of an `act` command after `strip().lower().split()`:
absent, present but not parseable as a float (the `except: pass` case, a
silent no-op), or a parsed numeric value. -/
inductive ArgTok
  | missing
  | malformed
  | val (d : ℝ)

/-- First token of an `act` command; any unrecognized token is `other`, a
no-op that still costs a step. -/
inductive BaseCmd
  | q
  | l
  | r
  | f
  | other

/-- A parsed `act` command. -/
structure Cmd where
  base : BaseCmd
  arg : ArgTok

/-- Whether the command is the finish command `q`. -/
def isQuit (c : Cmd) : Bool :=
  match c.base with
  | .q => true
  | _ => false

/-- Command dispatch of `act` (state mutation before the step-count
increment). -/
noncomputable def applyCmd (st : SessionState) (c : Cmd) : SessionState :=
  match c.base with
  | .q => st
  | .l =>
    match c.arg with
    | .val d => { st with currentHeading := fmod (st.currentHeading - d) 360 }
    | .missing => { st with currentHeading := fmod (st.currentHeading - 90) 360 }
    | .malformed => st
  | .r =>
    match c.arg with
    | .val d => { st with currentHeading := fmod (st.currentHeading + d) 360 }
    | .missing => { st with currentHeading := fmod (st.currentHeading + 90) 360 }
    | .malformed => st
  | .f =>
    let p := get_destination_point st.currentPos.1 st.currentPos.2 st.currentHeading
      (STEP_SIZE_METERS : ℝ)
    { st with currentPos := p, walkedPath := st.walkedPath ++ [p] }
  | .other => st

/-- Street-view rendering collaborator: `(lat, lon, heading) -> image or failure`. -/
abbrev ViewOracle : Type := ℝ → ℝ → ℝ → Option Image

/-- Static-map rendering collaborator: `(polyline, waypoints) -> image or failure`. -/
abbrev MapOracle : Type := List Pt → List Pt → Option Image

/-- Image refresh part of `act`: re-fetch the cached map when absent, fetch
the street view; on view failure fall back to the cached view or a
placeholder and set the warning flag.  Returns (updated state, view image
used, warning flag). -/
noncomputable def refreshImages (viewO : ViewOracle) (mapO : MapOracle)
    (st : SessionState) : SessionState × Image × Bool :=
  let stM :=
    match st.mapB64 with
    | some _ => st
    | none => { st with mapB64 := mapO st.routePoly st.generatedWaypoints }
  match viewO stM.currentPos.1 stM.currentPos.2 stM.currentHeading with
  | some v => ({ stM with lastViewB64 := some v }, v, false)
  | none => (stM,
      stM.lastViewB64.getD (Image.placeholderPng 640 400 "Street View unavailable (placeholder)"),
      true)

/-- Response dict of `act` (the prompt text, a float-formatted heading, is
presentational and not modelled; `images` entries may be `none` exactly
where Python may store `None`). -/
structure ActResponse where
  done : Bool
  error : Option String
  reason : Option String
  warning : Bool
  images : List (Option Image)

/-- One `act` call on an existing session (`ASINEnv.act` body after the
registry lookup). -/
noncomputable def actSession (viewO : ViewOracle) (mapO : MapOracle)
    (st : SessionState) (c : Cmd) : SessionState × ActResponse :=
  let st1 := applyCmd st c
  let st2 := { st1 with stepCount := st1.stepCount + 1 }
  let r := refreshImages viewO mapO st2
  (r.1,
    { done := isQuit c || decide (st2.maxSteps ≤ st2.stepCount),
      error := none,
      reason :=
        if st2.maxSteps ≤ st2.stepCount then some "Max steps exceeded"
        else if isQuit c = true then some "Agent requested finish" else none,
      warning := r.2.2,
      images := [r.1.mapB64, some r.2.1] })

/-- Fold of `actSession` over a list of commands, keeping the state. -/
noncomputable def runActs (viewO : ViewOracle) (mapO : MapOracle)
    (st : SessionState) (cmds : List Cmd) : SessionState :=
  cmds.foldl (fun s c => (actSession viewO mapO s c).1) st

/-! ### Frame lemmas for `actSession` -/

theorem applyCmd_stepCount (st : SessionState) (c : Cmd) :
    (applyCmd st c).stepCount = st.stepCount := by
  rcases c with ⟨base, arg⟩
  cases base <;> cases arg <;> rfl

theorem applyCmd_maxSteps (st : SessionState) (c : Cmd) :
    (applyCmd st c).maxSteps = st.maxSteps := by
  rcases c with ⟨base, arg⟩
  cases base <;> cases arg <;> rfl

theorem refreshImages_core (v : ViewOracle) (m : MapOracle) (st : SessionState) :
    ∃ mb lv, (refreshImages v m st).1 = { st with mapB64 := mb, lastViewB64 := lv } := by
  unfold refreshImages
  rcases hm : st.mapB64 with _ | img
  · simp only [hm]
    rcases hv : v ({ st with mapB64 := m st.routePoly st.generatedWaypoints }).currentPos.1
        ({ st with mapB64 := m st.routePoly st.generatedWaypoints }).currentPos.2
        ({ st with mapB64 := m st.routePoly st.generatedWaypoints }).currentHeading
      with _ | w
    · simp only [hv]
      exact ⟨m st.routePoly st.generatedWaypoints, st.lastViewB64, rfl⟩
    · simp only [hv]
      exact ⟨m st.routePoly st.generatedWaypoints, some w, rfl⟩
  · simp only [hm]
    rcases hv : v st.currentPos.1 st.currentPos.2 st.currentHeading with _ | w
    · simp only [hv]
      first
        | exact ⟨st.mapB64, st.lastViewB64, rfl⟩
        | exact ⟨some img, st.lastViewB64, rfl⟩
    · simp only [hv]
      first
        | exact ⟨st.mapB64, some w, rfl⟩
        | exact ⟨some img, some w, rfl⟩

theorem actSession_stepCount (v : ViewOracle) (m : MapOracle) (st : SessionState) (c : Cmd) :
    (actSession v m st c).1.stepCount = st.stepCount + 1 := by
  unfold actSession
  dsimp only
  obtain ⟨mb, lv, h⟩ := refreshImages_core v m
    { applyCmd st c with stepCount := (applyCmd st c).stepCount + 1 }
  rw [h]
  dsimp only
  rw [applyCmd_stepCount]

theorem actSession_maxSteps (v : ViewOracle) (m : MapOracle) (st : SessionState) (c : Cmd) :
    (actSession v m st c).1.maxSteps = st.maxSteps := by
  unfold actSession
  dsimp only
  obtain ⟨mb, lv, h⟩ := refreshImages_core v m
    { applyCmd st c with stepCount := (applyCmd st c).stepCount + 1 }
  rw [h]
  dsimp only
  rw [applyCmd_maxSteps]

theorem actSession_heading (v : ViewOracle) (m : MapOracle) (st : SessionState) (c : Cmd) :
    (actSession v m st c).1.currentHeading = (applyCmd st c).currentHeading := by
  unfold actSession
  dsimp only
  obtain ⟨mb, lv, h⟩ := refreshImages_core v m
    { applyCmd st c with stepCount := (applyCmd st c).stepCount + 1 }
  rw [h]

theorem actSession_done_eq (v : ViewOracle) (m : MapOracle) (st : SessionState) (c : Cmd) :
    (actSession v m st c).2.done
      = (isQuit c || decide (st.maxSteps ≤ st.stepCount + 1)) := by
  unfold actSession
  dsimp only
  rw [applyCmd_stepCount, applyCmd_maxSteps]

theorem actSession_reason_eq (v : ViewOracle) (m : MapOracle) (st : SessionState) (c : Cmd) :
    (actSession v m st c).2.reason
      = (if st.maxSteps ≤ st.stepCount + 1 then some "Max steps exceeded"
         else if isQuit c = true then some "Agent requested finish" else none) := by
  unfold actSession
  dsimp only
  rw [applyCmd_stepCount, applyCmd_maxSteps]

theorem runActs_stepCount (v : ViewOracle) (m : MapOracle) :
    ∀ (cmds : List Cmd) (st : SessionState),
      (runActs v m st cmds).stepCount = st.stepCount + cmds.length := by
  intro cmds
  induction cmds with
  | nil => intro st; simp [runActs]
  | cons c cs ih =>
    intro st
    unfold runActs at ih ⊢
    simp only [List.foldl_cons]
    rw [ih, actSession_stepCount]
    simp [List.length_cons]
    omega

theorem runActs_maxSteps (v : ViewOracle) (m : MapOracle) :
    ∀ (cmds : List Cmd) (st : SessionState),
      (runActs v m st cmds).maxSteps = st.maxSteps := by
  intro cmds
  induction cmds with
  | nil => intro st; simp [runActs]
  | cons c cs ih =>
    intro st
    unfold runActs at ih ⊢
    simp only [List.foldl_cons]
    rw [ih, actSession_maxSteps]

/-- A concrete session state used by witnesses: level 1, reference polyline
a quarter of the equator, heading 0, no steps taken yet,
`max_steps = max(120, ceil(200/15)*3) = 120`. -/
noncomputable def demoSession : SessionState :=
  { level := 1
    routePoly := [((0:ℝ), (0:ℝ)), ((0:ℝ), (90:ℝ))]
    generatedWaypoints := [((0:ℝ), (0:ℝ)), ((0:ℝ), (90:ℝ))]
    currentPos := ((0:ℝ), (0:ℝ))
    currentHeading := 0
    walkedPath := [((0:ℝ), (0:ℝ))]
    stepCount := 0
    maxSteps := 120
    targetDistM := 200
    mapB64 := none
    lastViewB64 := none }

/-! ### Claim C5: the step ceiling terminates the session -/

/-- C5: for a session with `step_count = 0` and
`max_steps = max(120, ceil(target_distance_m / 15) * 3)`, the
`max_steps`-th invocation of `act` returns `done = true` with reason
"Max steps exceeded", regardless of which commands were issued before or
which command is issued then (the reason overrides a simultaneous `q`). -/
theorem C5_step_ceiling (viewO : ViewOracle) (mapO : MapOracle)
    (st0 : SessionState) (td : ℕ) (prev : List Cmd) (c : Cmd)
    (hstep : st0.stepCount = 0)
    (hmax : st0.maxSteps = max 120 (((td + 14) / 15) * 3))
    (hlen : prev.length + 1 = st0.maxSteps) :
    (actSession viewO mapO (runActs viewO mapO st0 prev) c).2.done = true ∧
    (actSession viewO mapO (runActs viewO mapO st0 prev) c).2.reason
      = some "Max steps exceeded" := by
  have hsc : (runActs viewO mapO st0 prev).stepCount = prev.length := by
    rw [runActs_stepCount, hstep, zero_add]
  have hms : (runActs viewO mapO st0 prev).maxSteps = st0.maxSteps :=
    runActs_maxSteps viewO mapO prev st0
  have hit : (runActs viewO mapO st0 prev).maxSteps
      ≤ (runActs viewO mapO st0 prev).stepCount + 1 := by
    rw [hsc, hms, ← hlen]
  constructor
  · rw [actSession_done_eq]
    simp [hit]
  · rw [actSession_reason_eq, if_pos hit]

/-- C5 (witness): the ceiling theorem applied to `demoSession`
(`target_distance_m = 200`, so `max_steps = 120`) after 119 no-op commands:
the 120th `act` reports "Max steps exceeded". -/
theorem C5_witness :
    (actSession (fun _ _ _ => none) (fun _ _ => none)
        (runActs (fun _ _ _ => none) (fun _ _ => none) demoSession
          (List.replicate 119 ⟨BaseCmd.other, ArgTok.missing⟩))
        ⟨BaseCmd.other, ArgTok.missing⟩).2.done = true ∧
    (actSession (fun _ _ _ => none) (fun _ _ => none)
        (runActs (fun _ _ _ => none) (fun _ _ => none) demoSession
          (List.replicate 119 ⟨BaseCmd.other, ArgTok.missing⟩))
        ⟨BaseCmd.other, ArgTok.missing⟩).2.reason = some "Max steps exceeded" :=
  C5_step_ceiling (fun _ _ _ => none) (fun _ _ => none) demoSession 200
    (List.replicate 119 ⟨BaseCmd.other, ArgTok.missing⟩)
    ⟨BaseCmd.other, ArgTok.missing⟩ rfl (by decide) (by simp [demoSession])

/-! ### Claim C6: behaviour after termination -/

/-- C6 (counterexample): the claim "no transitions out of the terminated
state" is false for the code: `act` stores no terminated flag, so after a
`q` command has returned `done = true` a further `act` still mutates the
session; here an `r 90` changes the heading from 0 to 90. -/
theorem C6_counterexample :
    (actSession (fun _ _ _ => none) (fun _ _ => none) demoSession
        ⟨BaseCmd.q, ArgTok.missing⟩).2.done = true ∧
    (actSession (fun _ _ _ => none) (fun _ _ => none)
        (actSession (fun _ _ _ => none) (fun _ _ => none) demoSession
          ⟨BaseCmd.q, ArgTok.missing⟩).1
        ⟨BaseCmd.r, ArgTok.val 90⟩).1.currentHeading = 90 ∧
    demoSession.currentHeading = 0 ∧ (90:ℝ) ≠ 0 := by
  refine ⟨?_, ?_, rfl, by norm_num⟩
  · rw [actSession_done_eq]
    rfl
  · rw [actSession_heading]
    have h1 : (actSession (fun _ _ _ => none) (fun _ _ => none) demoSession
        ⟨BaseCmd.q, ArgTok.missing⟩).1.currentHeading = 0 := by
      rw [actSession_heading]
      rfl
    show fmod ((actSession (fun _ _ _ => none) (fun _ _ => none) demoSession
        ⟨BaseCmd.q, ArgTok.missing⟩).1.currentHeading + 90) 360 = 90
    rw [h1, zero_add]
    exact fmod_eq_self (by norm_num) (by norm_num) (by norm_num)

/-- C6 (amended): the environment stores no terminated flag, so `act` keeps
mutating state after a `done = true` response and `step_count` may exceed
`max_steps` (see `C6_counterexample`); termination enforcement is left to
the caller.  What does hold: `step_count` only grows, so once it has
reached `max_steps` every subsequent `act` returns `done = true`. -/
theorem C6_done_absorbing (viewO : ViewOracle) (mapO : MapOracle)
    (st : SessionState) (cmds : List Cmd) (c : Cmd)
    (h : st.maxSteps ≤ st.stepCount) :
    (actSession viewO mapO (runActs viewO mapO st cmds) c).2.done = true := by
  rw [actSession_done_eq]
  have hs := runActs_stepCount viewO mapO cmds st
  have hm := runActs_maxSteps viewO mapO cmds st
  have hit : (runActs viewO mapO st cmds).maxSteps
      ≤ (runActs viewO mapO st cmds).stepCount + 1 := by
    rw [hs, hm]
    omega
  simp [hit]

/-- C6 (witness): the absorbing-termination theorem applied to a session
whose step count has reached its ceiling. -/
theorem C6_witness :
    (actSession (fun _ _ _ => none) (fun _ _ => none)
        (runActs (fun _ _ _ => none) (fun _ _ => none)
          { demoSession with stepCount := 120 } [])
        ⟨BaseCmd.f, ArgTok.missing⟩).2.done = true :=
  C6_done_absorbing (fun _ _ _ => none) (fun _ _ => none)
    { demoSession with stepCount := 120 } [] ⟨BaseCmd.f, ArgTok.missing⟩ (le_refl 120)

/-! ### Claim C8: heading arithmetic -/

/-- C8: from any in-range heading, `l d` then `r d` restores the heading;
the heading after an `l` or `r` command always lies in [0, 360); and in
particular `l 370` then `r 10` from heading 0 yields heading 0. -/
theorem C8_heading_roundtrip (viewO : ViewOracle) (mapO : MapOracle)
    (st : SessionState) (d : ℝ)
    (h0 : 0 ≤ st.currentHeading) (h1 : st.currentHeading < 360) :
    (0 ≤ (actSession viewO mapO st ⟨BaseCmd.l, ArgTok.val d⟩).1.currentHeading ∧
      (actSession viewO mapO st ⟨BaseCmd.l, ArgTok.val d⟩).1.currentHeading < 360) ∧
    (0 ≤ (actSession viewO mapO st ⟨BaseCmd.r, ArgTok.val d⟩).1.currentHeading ∧
      (actSession viewO mapO st ⟨BaseCmd.r, ArgTok.val d⟩).1.currentHeading < 360) ∧
    (actSession viewO mapO
        (actSession viewO mapO st ⟨BaseCmd.l, ArgTok.val d⟩).1
        ⟨BaseCmd.r, ArgTok.val d⟩).1.currentHeading = st.currentHeading ∧
    (actSession (fun _ _ _ => none) (fun _ _ => none)
        (actSession (fun _ _ _ => none) (fun _ _ => none) demoSession
          ⟨BaseCmd.l, ArgTok.val 370⟩).1
        ⟨BaseCmd.r, ArgTok.val 10⟩).1.currentHeading = 0 := by
  have hL : ∀ (v : ViewOracle) (mo : MapOracle) (s : SessionState) (x : ℝ),
      (actSession v mo s ⟨BaseCmd.l, ArgTok.val x⟩).1.currentHeading
        = fmod (s.currentHeading - x) 360 := by
    intro v mo s x
    rw [actSession_heading]
    rfl
  have hR : ∀ (v : ViewOracle) (mo : MapOracle) (s : SessionState) (x : ℝ),
      (actSession v mo s ⟨BaseCmd.r, ArgTok.val x⟩).1.currentHeading
        = fmod (s.currentHeading + x) 360 := by
    intro v mo s x
    rw [actSession_heading]
    rfl
  refine ⟨?_, ?_, ?_, ?_⟩
  · rw [hL]
    exact ⟨fmod_nonneg_of_pos (by norm_num) _, fmod_lt_of_pos (by norm_num) _⟩
  · rw [hR]
    exact ⟨fmod_nonneg_of_pos (by norm_num) _, fmod_lt_of_pos (by norm_num) _⟩
  · rw [hR, hL]
    exact fmod_restore h0 h1
  · rw [hR, hL]
    have hd : demoSession.currentHeading = 0 := rfl
    rw [hd]
    have ha : fmod ((0:ℝ) - 370) 360 = 350 := by
      unfold fmod
      have hf : ⌊((0:ℝ) - 370) / 360⌋ = -2 := by
        rw [Int.floor_eq_iff]
        constructor
        · push_cast
          norm_num
        · push_cast
          norm_num
      rw [hf]
      push_cast
      ring
    rw [ha]
    have hf2 : ⌊((350:ℝ) + 10) / 360⌋ = 1 := by
      rw [Int.floor_eq_iff]
      constructor
      · push_cast
        norm_num
      · push_cast
        norm_num
    unfold fmod
    rw [hf2]
    push_cast
    ring

/-- C8 (witness): the round-trip theorem applied to `demoSession` (heading
0) with `d = 370`. -/
theorem C8_witness :
    (0 ≤ (actSession (fun _ _ _ => none) (fun _ _ => none) demoSession
        ⟨BaseCmd.l, ArgTok.val 370⟩).1.currentHeading ∧
      (actSession (fun _ _ _ => none) (fun _ _ => none) demoSession
        ⟨BaseCmd.l, ArgTok.val 370⟩).1.currentHeading < 360) ∧
    (0 ≤ (actSession (fun _ _ _ => none) (fun _ _ => none) demoSession
        ⟨BaseCmd.r, ArgTok.val 370⟩).1.currentHeading ∧
      (actSession (fun _ _ _ => none) (fun _ _ => none) demoSession
        ⟨BaseCmd.r, ArgTok.val 370⟩).1.currentHeading < 360) ∧
    (actSession (fun _ _ _ => none) (fun _ _ => none)
        (actSession (fun _ _ _ => none) (fun _ _ => none) demoSession
          ⟨BaseCmd.l, ArgTok.val 370⟩).1
        ⟨BaseCmd.r, ArgTok.val 370⟩).1.currentHeading = demoSession.currentHeading ∧
    (actSession (fun _ _ _ => none) (fun _ _ => none)
        (actSession (fun _ _ _ => none) (fun _ _ => none) demoSession
          ⟨BaseCmd.l, ArgTok.val 370⟩).1
        ⟨BaseCmd.r, ArgTok.val 10⟩).1.currentHeading = 0 :=
  C8_heading_roundtrip (fun _ _ _ => none) (fun _ _ => none) demoSession 370
    (le_refl 0) (by norm_num [demoSession])

/-! ### Level selection (`asin_env.ASINEnv._determine_level`) -/

/-- Python `str.strip` (ASCII whitespace model). -/
def pyStrip (s : List Char) : List Char :=
  ((s.dropWhile Char.isWhitespace).reverse.dropWhile Char.isWhitespace).reverse

/-- Python `str.lower` (ASCII model). -/
def pyLower (s : List Char) : List Char := s.map Char.toLower

/-- Numeric value of a digit run. -/
def digitsVal (l : List Char) : ℕ :=
  l.foldl (fun acc c => acc * 10 + (c.toNat - 48)) 0

/-- Integer value of the leftmost match of the regex `(-?\d+)`
(`re.search`): the first position where a digit starts, or a minus sign
immediately followed by a digit, taking the maximal digit run. -/
def findFirstInt : List Char → Option ℤ
  | [] => none
  | c :: rest =>
    if c.isDigit then some ((digitsVal ((c :: rest).takeWhile Char.isDigit) : ℤ))
    else if c = '-' && (match rest with | [] => false | d :: _ => d.isDigit) then
      some (-(digitsVal (rest.takeWhile Char.isDigit) : ℤ))
    else findFirstInt rest

/-- Regex word characters (ASCII model, string already lowercased). -/
def isWordChar (c : Char) : Bool := c.isAlphanum || c = '_'

/-- Does the list start with the letters of "level"? -/
def startsLevel : List Char → Bool
  | 'l' :: 'e' :: 'v' :: 'e' :: 'l' :: _ => true
  | _ => false

/-- Is the character following a leading "level" a non-word character (or
absent)?  Only meaningful when `startsLevel` holds. -/
def afterLevelOk : List Char → Bool
  | _ :: _ :: _ :: _ :: _ :: rest =>
    match rest with
    | [] => true
    | c :: _ => !(isWordChar c)
  | _ => false

def hasLevelWordAux : Option Char → List Char → Bool
  | _, [] => false
  | prev, c :: rest =>
    (startsLevel (c :: rest)
      && (match prev with | none => true | some p => !(isWordChar p))
      && afterLevelOk (c :: rest))
    || hasLevelWordAux (some c) rest

/-- Whether `re.search(r"\blevel\b", s)` matches. -/
def hasLevelWord (s : List Char) : Bool := hasLevelWordAux none s

/-- The free-text branch of `_determine_level`: try "level <n>" first, then
the zero-based-index reading `n+1`, then (the code's extra branch) `n`
itself, else default to 1. -/
def textLevel (s : List Char) : ℕ :=
  let sl := pyLower (pyStrip s)
  let fallback :=
    match findFirstInt sl with
    | some n =>
      if 1 ≤ n + 1 ∧ n + 1 ≤ 10 then (n + 1).toNat
      else if 1 ≤ n ∧ n ≤ 10 then n.toNat
      else 1
    | none => 1
  if hasLevelWord sl then
    match findFirstInt sl with
    | some n => if 1 ≤ n ∧ n ≤ 10 then n.toNat else fallback
    | none => fallback
  else fallback

/-- A `task_config` level selector.  Dict fields hold `some (some n)` when
the key is present and `int(...)` succeeds, `some none` when present but
unparseable (the silent `except` case), `none` when the key is absent. -/
inductive TaskConfig
  | noCfg
  | dict (level taskIndex index : Option (Option ℤ))
  | text (s : String)

/-- One `task_index`/`index` dict key: accepted when `1 <= idx+1 <= 10`. -/
def tryIdxField : Option (Option ℤ) → Option ℕ
  | some (some n) => if 1 ≤ n + 1 ∧ n + 1 ≤ 10 then some (n + 1).toNat else none
  | _ => none

def dictFallback (ti idx : Option (Option ℤ)) : ℕ :=
  match tryIdxField ti with
  | some lvl => lvl
  | none =>
    match tryIdxField idx with
    | some lvl => lvl
    | none => 1

/-- `ASINEnv._determine_level`.  `noCfg` covers `None`; the empty string
returns 1 through the early `task_config == ""` check. -/
def determine_level : TaskConfig → ℕ
  | .noCfg => 1
  | .dict lvl ti idx =>
    (match lvl with
     | some (some n) => if 1 ≤ n ∧ n ≤ 10 then n.toNat else dictFallback ti idx
     | _ => dictFallback ti idx)
  | .text s => if s.data = [] then 1 else textLevel s.data

/-! ### Claim C7: free-text level resolution -/

/-- C7 (counterexample): on the free text "10" the code returns level 10
through its extra `1 <= idx <= 10` fallback branch, while the claim says
the only readings are "level n" and zero-based `n+1` (out of range here),
so the claim predicts level 1. -/
theorem C7_counterexample :
    determine_level (TaskConfig.text "10") = 10 ∧ (10 : ℕ) ≠ 1 := by
  constructor
  · rfl
  · decide

/-- The free-text resolution as the (amended) claim words it: the leading
integer `n` is the level when the word "level" occurs and `1 <= n <= 10`;
otherwise `n` is read as a zero-based index giving `n+1` when that lands in
[1,10]; otherwise (the amendment forced by `C7_counterexample`) `n` itself
when `1 <= n <= 10`; otherwise level 1. -/
def claimedTextLevel (s : List Char) : ℕ :=
  let sl := pyLower (pyStrip s)
  match findFirstInt sl with
  | none => 1
  | some n =>
    if hasLevelWord sl ∧ 1 ≤ n ∧ n ≤ 10 then n.toNat
    else if 1 ≤ n + 1 ∧ n + 1 ≤ 10 then (n + 1).toNat
    else if 1 ≤ n ∧ n ≤ 10 then n.toNat
    else 1

/-- C7 (amended): the free-text branch of `_determine_level` agrees with the
amended reading `claimedTextLevel` on every string. -/
theorem C7_text_level_characterization (s : String) :
    determine_level (TaskConfig.text s) = claimedTextLevel s.data := by
  simp only [determine_level, claimedTextLevel, textLevel]
  by_cases hs : s.data = []
  · rw [if_pos hs, hs]
    rfl
  · rw [if_neg hs]
    cases hf : findFirstInt (pyLower (pyStrip s.data)) with
    | none => cases hw : hasLevelWord (pyLower (pyStrip s.data)) <;> simp [hf, hw]
    | some n =>
      cases hw : hasLevelWord (pyLower (pyStrip s.data)) with
      | false => simp [hf, hw]
      | true =>
        by_cases hr : 1 ≤ n ∧ n ≤ 10
        · simp [hf, hw, hr]
        · simp [hf, hw, hr]

/-! ### Level configuration (`utils.LEVEL_CONFIG`) -/

structure LevelCfg where
  dist : ℕ
  waypoints : ℕ
  weight : ℕ

def LEVEL_CONFIG : ℕ → Option LevelCfg
  | 1 => some ⟨200, 0, 1⟩
  | 2 => some ⟨400, 0, 2⟩
  | 3 => some ⟨600, 0, 3⟩
  | 4 => some ⟨800, 0, 4⟩
  | 5 => some ⟨1000, 0, 5⟩
  | 6 => some ⟨1200, 1, 6⟩
  | 7 => some ⟨1500, 1, 7⟩
  | 8 => some ⟨1800, 1, 8⟩
  | 9 => some ⟨2000, 1, 9⟩
  | 10 => some ⟨2500, 1, 10⟩
  | _ => none

/-- `LEVEL_CONFIG.get(level, LEVEL_CONFIG[1])`. -/
def levelConfigGet (level : ℕ) : LevelCfg := (LEVEL_CONFIG level).getD ⟨200, 0, 1⟩

/-! ### Route generation (`logic.NavigationLogic.generate_route`) -/

/-- One directions leg as consumed by `generate_route`. -/
structure Leg where
  startAddress : String
  endAddress : String
  distanceValue : ℤ
  startLocation : Pt
  endLocation : Pt

/-- `directions[0]`: the legs plus the decoded overview polyline (the
polyline codec is an external library, so the oracle hands over the decoded
point list). -/
structure DirRoute where
  legs : List Leg
  overviewPolyline : List Pt

/-- Routing collaborator: `(origin, destination, waypoints) -> directions[0]`,
`none` covering both an exception and an empty result (both `continue`). -/
abbrev DirectionsOracle : Type := Pt → Pt → List Pt → Option DirRoute

def startsWithChars : List Char → List Char → Bool
  | _, [] => true
  | [], _ :: _ => false
  | c :: cs, d :: ds => c = d && startsWithChars cs ds

def containsChars (pat : List Char) : List Char → Bool
  | [] => startsWithChars [] pat
  | c :: rest => startsWithChars (c :: rest) pat || containsChars pat rest

/-- `"Manhattan" in addr or "New York, NY" in addr`. -/
def isManhattan (addr : String) : Bool :=
  containsChars "Manhattan".data addr.data || containsChars "New York, NY".data addr.data

/-- `utils.NYC_BOUNDS`. -/
noncomputable def NYC_LAT_MIN : ℝ := 40.7300
noncomputable def NYC_LAT_MAX : ℝ := 40.7900
noncomputable def NYC_LON_MIN : ℝ := -74.0000
noncomputable def NYC_LON_MAX : ℝ := -73.9600

/-- `rng.uniform(a, b)` realized on the `i`-th unit draw of the private
seeded stream: `a + (b - a) * random()`. -/
noncomputable def uniformDraw (rng : ℕ → ℝ) (i : ℕ) (a b : ℝ) : ℝ := a + (b - a) * rng i

/-- The random-walk loop generating `waypoint_count + 1` points: each point
offsets the previous one by two uniform draws; leaving the bounding box
aborts the attempt (after the failing point's two draws).  Returns the
generated points (oldest first) and the next draw index. -/
noncomputable def randomWalk (rng : ℕ → ℝ) (degOff : ℝ) :
    ℕ → ℕ → ℝ → ℝ → Option (List Pt) × ℕ
  | 0, idx, _, _ => (some [], idx)
  | n + 1, idx, lat, lon =>
    let latOff := uniformDraw rng idx (-degOff) degOff
    let lonOff := uniformDraw rng (idx + 1) (-degOff) degOff
    let nlat := lat + latOff
    let nlon := lon + lonOff
    if NYC_LAT_MIN < nlat ∧ nlat < NYC_LAT_MAX ∧ NYC_LON_MIN < nlon ∧ nlon < NYC_LON_MAX then
      match randomWalk rng degOff n (idx + 2) nlat nlon with
      | (some ps, idx2) => (some ((nlat, nlon) :: ps), idx2)
      | (none, idx2) => (none, idx2)
    else (none, idx + 2)

/-- The route dict returned by `generate_route`. -/
structure RouteData where
  routePoly : List Pt
  generatedWaypoints : List Pt
  startPos : Pt
  startHeading : ℝ
  totalDist : ℝ
  originalTotalDist : ℤ

/-- One attempt of the generation loop.  Python would raise an uncaught
IndexError on a directions result with an empty legs list (the inner `try`
only wraps the API call); `start()` catches it and produces a terminal
failure, which for every property considered here coincides with treating
the attempt as failed. -/
noncomputable def attemptRoute (rng : ℕ → ℝ) (oracle : DirectionsOracle)
    (targetDist numWaypoints : ℕ) (idx : ℕ) : Option RouteData × ℕ :=
  let lat := uniformDraw rng idx NYC_LAT_MIN NYC_LAT_MAX
  let lon := uniformDraw rng (idx + 1) NYC_LON_MIN NYC_LON_MAX
  let origin : Pt := (lat, lon)
  match randomWalk rng ((targetDist : ℝ) / ((numWaypoints : ℝ) + 1) / 111000)
      (numWaypoints + 1) (idx + 2) lat lon with
  | (none, idx2) => (none, idx2)
  | (some ps, idx2) =>
    let destination := ps.getLastD (0, 0)
    let intermediates := ps.dropLast
    match oracle origin destination intermediates with
    | none => (none, idx2)
    | some route =>
      match route.legs with
      | [] => (none, idx2)
      | leg0 :: legsTail =>
        let legs := leg0 :: legsTail
        let lastLeg := legs.getLastD leg0
        if !(isManhattan leg0.startAddress) || !(isManhattan lastLeg.endAddress) then
          (none, idx2)
        else if (legs.dropLast).any (fun leg => !(isManhattan leg.endAddress)) then
          (none, idx2)
        else
          let routeDistMeters := (legs.map (fun leg => leg.distanceValue)).sum
          if routeDistMeters < (targetDist : ℤ) then (none, idx2)
          else
            let snapped := (leg0.startLocation ::
              (legs.dropLast).map (fun leg => leg.endLocation)) ++ [lastLeg.endLocation]
            let routePoly := route.overviewPolyline
            if polyline_length_meters routePoly < (targetDist : ℝ) then (none, idx2)
            else if 1 ≤ numWaypoints ∧ 2 ≤ legs.length ∧
                (targetDist : ℤ) ≤ leg0.distanceValue + 25 then (none, idx2)
            else
              let tr := truncate_polyline_to_meters routePoly (targetDist : ℝ)
              let truncatedEnd := tr.1.getLastD (0, 0)
              let snapped2 := snapped.dropLast ++ [truncatedEnd]
              let startPos := tr.1.headD (0, 0)
              let startHeading :=
                match tr.1 with
                | p0 :: p1 :: _ => calculate_initial_bearing p0.1 p0.2 p1.1 p1.2
                | _ => 0
              (some ⟨tr.1, snapped2, startPos, startHeading, tr.2, routeDistMeters⟩, idx2)

/-- The bounded attempts loop (`max_attempts = 100`). -/
noncomputable def generateRouteAux (rng : ℕ → ℝ) (oracle : DirectionsOracle)
    (targetDist numWaypoints : ℕ) : ℕ → ℕ → Option RouteData
  | 0, _ => none
  | fuel + 1, idx =>
    match attemptRoute rng oracle targetDist numWaypoints idx with
    | (some rd, _) => some rd
    | (none, idx2) => generateRouteAux rng oracle targetDist numWaypoints fuel idx2

/-- `NavigationLogic.generate_route` for a seeded private stream. -/
noncomputable def generate_route (rng : ℕ → ℝ) (oracle : DirectionsOracle)
    (level : ℕ) : Option RouteData :=
  let config := levelConfigGet level
  generateRouteAux rng oracle config.dist config.waypoints 100 0

/-- Ambient wrapper: the Python process also carries a shared global random
source; `generate_route` builds `rng = random.Random(seed)`, a private
stream fully determined by the seed (`seedStream seed`), and never touches
the global source, which is therefore a dead parameter here exactly as in
the code. -/
noncomputable def generateRouteAmbient (globalRng : ℕ → ℝ)
    (seedStream : ℤ → ℕ → ℝ) (oracle : DirectionsOracle)
    (level : ℕ) (seed : ℤ) : Option RouteData :=
  generate_route (seedStream seed) oracle level

/-! ### Claim C4: determinism of route generation -/

/-- C4: route generation depends only on the seed's private stream and the
routing collaborator's responses: whatever the shared global random source
holds in either run, equal seed streams and one collaborator give identical
RouteData (polyline, waypoints, start position, heading and distances). -/
theorem C4_generation_deterministic (g1 g2 : ℕ → ℝ)
    (s1 s2 : ℤ → ℕ → ℝ) (oracle : DirectionsOracle) (level : ℕ) (seed : ℤ)
    (hs : s1 seed = s2 seed) :
    generateRouteAmbient g1 s1 oracle level seed
      = generateRouteAmbient g2 s2 oracle level seed := by
  unfold generateRouteAmbient
  rw [hs]

/-- C4 (witness): two runs with different global sources but the same seed
stream and collaborator coincide at level 1, seed 1001. -/
theorem C4_witness :
    generateRouteAmbient (fun _ => 0) (fun _ _ => 0) (fun _ _ _ => none) 1 1001
      = generateRouteAmbient (fun _ => 1) (fun _ _ => 0) (fun _ _ _ => none) 1 1001 :=
  C4_generation_deterministic (fun _ => 0) (fun _ => 1) (fun _ _ => 0) (fun _ _ => 0)
    (fun _ _ _ => none) 1 1001 rfl

/-! ### Session registry and orchestrator (`ASINEnv.start/act/result`) -/

/-- The in-memory session registry `self.sessions` (a Python dict), modelled
as an association list looked up by first match; insertion is modelled
lookup-equivalently (Python keeps an overwritten key's position, the model
re-appends it). -/
abbrev Registry : Type := List (String × SessionState)

def lookupReg : Registry → String → Option SessionState
  | [], _ => none
  | (k, v) :: rest, sid => if k = sid then some v else lookupReg rest sid

/-- `self.sessions.pop(sid, None)` (key removal). -/
def removeReg : Registry → String → Registry
  | [], _ => []
  | (k, v) :: rest, sid =>
    if k = sid then removeReg rest sid else (k, v) :: removeReg rest sid

/-- `self.sessions[sid] = state` (insert or overwrite). -/
def insertReg (reg : Registry) (sid : String) (st : SessionState) : Registry :=
  removeReg reg sid ++ [(sid, st)]

theorem lookupReg_append (a b : Registry) (sid : String) :
    lookupReg (a ++ b) sid
      = (match lookupReg a sid with
         | some v => some v
         | none => lookupReg b sid) := by
  induction a with
  | nil => rfl
  | cons p rest ih =>
    rcases p with ⟨k, v⟩
    by_cases hk : k = sid
    · simp [lookupReg, hk]
    · simp [lookupReg, hk, ih]

theorem lookupReg_removeReg (reg : Registry) (sid sid' : String) :
    lookupReg (removeReg reg sid) sid'
      = if sid' = sid then none else lookupReg reg sid' := by
  induction reg with
  | nil => simp [removeReg, lookupReg]
  | cons p rest ih =>
    rcases p with ⟨k, v⟩
    by_cases hk : k = sid
    · by_cases hs : sid' = sid
      · subst hs
        simp [removeReg, lookupReg, hk, ih]
      · have hns : ¬ sid = sid' := fun h => hs h.symm
        simp [removeReg, lookupReg, hk, hs, ih, hns]
    · by_cases hks : k = sid'
      · by_cases hs : sid' = sid
        · exact absurd (hks.trans hs) hk
        · simp [removeReg, lookupReg, hk, hks, hs]
      · simp [removeReg, lookupReg, hk, hks, ih]

theorem lookupReg_insertReg (reg : Registry) (sid : String) (st : SessionState)
    (sid' : String) :
    lookupReg (insertReg reg sid st) sid'
      = if sid' = sid then some st else lookupReg reg sid' := by
  unfold insertReg
  rw [lookupReg_append, lookupReg_removeReg]
  by_cases hs : sid' = sid
  · simp [lookupReg, hs]
  · have hns : ¬ sid = sid' := fun h => hs h.symm
    simp only [if_neg hs]
    cases h : lookupReg reg sid' with
    | none => simp [lookupReg, hns]
    | some v => simp [lookupReg, hns]

/-- `ASINEnv.act` including the registry lookup and write-back. -/
noncomputable def envAct (viewO : ViewOracle) (mapO : MapOracle)
    (reg : Registry) (sid : String) (c : Cmd) : Registry × ActResponse :=
  match lookupReg reg sid with
  | none => (reg, { done := true,
                    error := some "Session not found",
                    reason := none,
                    warning := false,
                    images := [] })
  | some st =>
    let r := actSession viewO mapO st c
    (insertReg reg sid r.1, r.2)

/-- Final-map rendering collaborator used by `result`. -/
abbrev FinalMapOracle : Type := List Pt → List Pt → List Pt → Option Image

/-- Result dict of `result`: the unknown-session `{score: 0, error}` shape
or the full score report. -/
inductive ResultResponse
  | errorResult (score : ℝ) (msg : String)
  | okResult (score rawScore : ℝ) (level weight : ℕ) (destinationReached : Bool)
      (distanceToTarget avgDeviation : ℝ) (finalMap : Option Image)

/-- `ASINEnv.result`: score the walked path, weight it, remove the session
(read-once) and report. -/
noncomputable def envResult (finalO : FinalMapOracle) (reg : Registry) (sid : String) :
    Registry × ResultResponse :=
  match lookupReg reg sid with
  | none => (reg, .errorResult 0 "No state")
  | some st =>
    let sc := calculate_final_score st.walkedPath st.routePoly
    let finalMap := finalO st.routePoly st.generatedWaypoints st.walkedPath
    let weight := (levelConfigGet st.level).weight
    (removeReg reg sid,
      .okResult (sc.total * (weight : ℝ)) sc.total st.level weight
        (decide (0 < sc.dest)) sc.distToFinish sc.avgDeviation finalMap)

/-- `ASINEnv.start`: resolve the level, derive `seed = 1000 + level`, run the
route generator on the seed's private stream; on failure return a terminal
failure without touching the registry; on success build the session state
with `max_steps = max(120, ceil(target_distance_m / 15) * 3)`, fetch both
images with placeholder fallbacks, and insert the session under `sid`. -/
noncomputable def envStart (seedStream : ℤ → ℕ → ℝ) (oracle : DirectionsOracle)
    (mapO : MapOracle) (viewO : ViewOracle)
    (reg : Registry) (sid : String) (cfg : TaskConfig) : Registry × ActResponse :=
  let level := determine_level cfg
  let seed : ℤ := 1000 + (level : ℤ)
  match generate_route (seedStream seed) oracle level with
  | none => (reg, { done := true,
                    error := some "Failed to generate route",
                    reason := none,
                    warning := false,
                    images := [] })
  | some rd =>
    let targetDistM := (levelConfigGet level).dist
    let maxSteps := max 120 (((targetDistM + 14) / 15) * 3)
    let mapImg :=
      match mapO rd.routePoly rd.generatedWaypoints with
      | some img => img
      | none => Image.placeholderPng 640 640 "Map unavailable (placeholder)"
    let viewImg :=
      match viewO rd.startPos.1 rd.startPos.2 rd.startHeading with
      | some img => img
      | none => Image.placeholderPng 640 400 "Street View unavailable (placeholder)"
    let st : SessionState :=
      { level := level
        routePoly := rd.routePoly
        generatedWaypoints := rd.generatedWaypoints
        currentPos := rd.startPos
        currentHeading := rd.startHeading
        walkedPath := [rd.startPos]
        stepCount := 0
        maxSteps := maxSteps
        targetDistM := targetDistM
        mapB64 := some mapImg
        lastViewB64 := some viewImg }
    (insertReg reg sid st,
      { done := false, error := none, reason := none, warning := false,
        images := [some mapImg, some viewImg] })

/-! ### Claim C9: unknown sessions -/

/-- C9: on an unknown session id, `act` returns a terminal failure response
(`done = true` with an error) without raising and without creating a
session entry, and `result` returns score 0 with an error; both leave the
registry untouched. -/
theorem C9_unknown_session (viewO : ViewOracle) (mapO : MapOracle)
    (finalO : FinalMapOracle) (reg : Registry) (sid : String) (c : Cmd)
    (h : lookupReg reg sid = none) :
    envAct viewO mapO reg sid c
        = (reg, { done := true,
                  error := some "Session not found",
                  reason := none,
                  warning := false,
                  images := [] }) ∧
    envResult finalO reg sid = (reg, ResultResponse.errorResult 0 "No state") := by
  unfold envAct envResult
  rw [h]
  exact ⟨rfl, rfl⟩

/-- C9 (witness): acting on and reading the empty registry with the id
"nonexistent". -/
theorem C9_witness :
    envAct (fun _ _ _ => none) (fun _ _ => none) ([] : Registry) "nonexistent"
        ⟨BaseCmd.f, ArgTok.missing⟩
        = (([] : Registry), { done := true,
                              error := some "Session not found",
                              reason := none,
                              warning := false,
                              images := [] }) ∧
    envResult (fun _ _ _ => none) ([] : Registry) "nonexistent"
        = (([] : Registry), ResultResponse.errorResult 0 "No state") :=
  C9_unknown_session (fun _ _ _ => none) (fun _ _ => none) (fun _ _ _ => none)
    ([] : Registry) "nonexistent" ⟨BaseCmd.f, ArgTok.missing⟩ rfl

/-! ### Claim C10: registry frame properties -/

/-- C10: `act` never inserts or removes registry entries (its own key stays
present or absent exactly as before) and never touches any other session;
`start` changes no entry other than its own sid (and none at all when
generation fails); `result` removes at most its own sid, which is absent
afterwards, and leaves every other entry untouched. -/
theorem C10_registry_frame (viewO : ViewOracle) (mapO : MapOracle)
    (finalO : FinalMapOracle) (seedStream : ℤ → ℕ → ℝ) (oracle : DirectionsOracle)
    (reg : Registry) (sid sid' : String) (c : Cmd) (cfg : TaskConfig)
    (hne : sid' ≠ sid) :
    lookupReg (envAct viewO mapO reg sid c).1 sid' = lookupReg reg sid' ∧
    ((lookupReg (envAct viewO mapO reg sid c).1 sid = none)
      ↔ (lookupReg reg sid = none)) ∧
    lookupReg (envStart seedStream oracle mapO viewO reg sid cfg).1 sid'
      = lookupReg reg sid' ∧
    lookupReg (envResult finalO reg sid).1 sid' = lookupReg reg sid' ∧
    lookupReg (envResult finalO reg sid).1 sid = none := by
  refine ⟨?_, ?_, ?_, ?_, ?_⟩
  · cases hl : lookupReg reg sid with
    | none => simp [envAct, hl]
    | some st =>
      simp only [envAct, hl]
      rw [lookupReg_insertReg, if_neg hne]
  · cases hl : lookupReg reg sid with
    | none => simp [envAct, hl]
    | some st =>
      simp only [envAct, hl]
      rw [lookupReg_insertReg, if_pos rfl]
      simp [hl]
  · cases hg : generate_route (seedStream (1000 + (determine_level cfg : ℤ))) oracle
        (determine_level cfg) with
    | none => simp [envStart, hg]
    | some rd =>
      simp only [envStart, hg]
      rw [lookupReg_insertReg, if_neg hne]
  · cases hl : lookupReg reg sid with
    | none => simp [envResult, hl]
    | some st =>
      simp only [envResult, hl]
      rw [lookupReg_removeReg, if_neg hne]
  · cases hl : lookupReg reg sid with
    | none => simp [envResult, hl]
    | some st =>
      simp only [envResult, hl]
      rw [lookupReg_removeReg, if_pos rfl]

/-- C10 (witness): the frame theorem applied to the empty registry with
distinct ids "a" and "b". -/
theorem C10_witness :
    lookupReg (envAct (fun _ _ _ => none) (fun _ _ => none) ([] : Registry) "a"
        ⟨BaseCmd.f, ArgTok.missing⟩).1 "b" = lookupReg ([] : Registry) "b" ∧
    lookupReg (envResult (fun _ _ _ => none) ([] : Registry) "a").1 "a" = none :=
  ⟨(C10_registry_frame (fun _ _ _ => none) (fun _ _ => none) (fun _ _ _ => none)
      (fun _ _ => 0) (fun _ _ _ => none) ([] : Registry) "a" "b"
      ⟨BaseCmd.f, ArgTok.missing⟩ TaskConfig.noCfg (by decide)).1,
    (C10_registry_frame (fun _ _ _ => none) (fun _ _ => none) (fun _ _ _ => none)
      (fun _ _ => 0) (fun _ _ _ => none) ([] : Registry) "a" "b"
      ⟨BaseCmd.f, ArgTok.missing⟩ TaskConfig.noCfg (by decide)).2.2.2.2⟩

end ASIN
